import Mathlib

/-!
Verification of the Tool Orchestration Service (lettasearch).

Shallow embedding of the attach/prune engine (`src/api_server.py`), the sync
engine's obsolescence filter (`src/fetch_all_tools.py`, `src/sync_service.py`),
the cache writers (`src/sync_service.py`), the hybrid-search score mapping
(`src/weaviate_tool_search.py`) and the health endpoint (`src/api_server.py`).

Remote HTTP responses are modelled as oracle arguments (a function from the
request's key to an `HttpResult`); the Python event loop's `asyncio.gather`
phases are modelled as sequential blocks, which is exactly the ordering
invariant the code's `await` structure guarantees.
-/

namespace LettaSearch

/-! ### Python truthiness for optional-string fields

`tool.get('id') or tool.get('tool_id')` treats both a missing key and an
empty string as falsy; `effId` reproduces that. -/

def pyTruthy : Option String → Bool
  | none => false
  | some s => s ≠ ""

/-- `x.get('id') or x.get('tool_id')` from the source, as used throughout
`api_server.py` to obtain a tool's effective id. -/
def effId (i t : Option String) : Option String :=
  if pyTruthy i then i else if pyTruthy t then t else none

/-! ### Data model (§3 of the spec, as the source reads the JSON dicts) -/

/-- A tool as returned by `GET /agents/{id}/tools` (`fetch_agent_tools`).
Only the fields `_perform_tool_pruning` and `process_tools` read. -/
structure AgentTool where
  id : Option String
  tool_id : Option String
  name : String
  tool_type : Option String
  deriving Repr, DecidableEq

/-- A tool as returned by `search_tools` when called from
`_perform_tool_pruning` (only id fields and `tool_type` are kept, see the
construction of `ordered_top_library_tool_info`). -/
structure LibTool where
  id : Option String
  tool_id : Option String
  name : String
  tool_type : Option String
  deriving Repr, DecidableEq

/-! ### Prune engine: `_perform_tool_pruning` (src/api_server.py)

The function's decision logic is pure given
  - the agent's current tool list (`fetch_agent_tools` result),
  - the drop rate,
  - the `keep_tool_ids` and `newly_matched_tool_ids` request lists,
  - the library search result (`search_tools` output), an oracle input.
We embed exactly that decision logic; the detach HTTP calls are batched
afterwards over the computed detach set (see `detach_tool` below). -/

/-- Pair each agent tool with its effective id, dropping tools without one
(the source logs and `continue`s on those). -/
def withIds (tools : List AgentTool) : List (String × AgentTool) :=
  tools.filterMap fun t => (effId t.id t.tool_id).map fun tid => (tid, t)

/-- `current_mcp_tool_ids`: ids of agent tools with `tool_type == "external_mcp"`. -/
def mcpIdSet (tools : List AgentTool) : Finset String :=
  (((withIds tools).filter fun p => p.2.tool_type = some "external_mcp").map Prod.fst).toFinset

/-- `current_core_tool_ids`: ids of agent tools of any other `tool_type`. -/
def coreIdSet (tools : List AgentTool) : Finset String :=
  (((withIds tools).filter fun p => ¬ p.2.tool_type = some "external_mcp").map Prod.fst).toFinset

/-- `num_mcp_tools_to_keep = math.floor(N * (1.0 - drop_rate))`, clamped at 0
(`if num_mcp_tools_to_keep < 0: num_mcp_tools_to_keep = 0`).  `Int.toNat`
performs exactly that clamp. -/
def pruneTarget (tools : List AgentTool) (dropRate : ℚ) : ℕ :=
  (⌊((mcpIdSet tools).card : ℚ) * (1 - dropRate)⌋).toNat

/-- `aggressive_target = max(1, math.floor(num_currently_attached_mcp * 0.8))`.
`(4 * n) / 5` in ℕ is `⌊0.8 · n⌋`. -/
def aggressiveTarget (n : ℕ) : ℕ :=
  max 1 ((4 * n) / 5)

/-- The must-keep set: ids from `newly_matched_tool_ids` and `keep_tool_ids`
that are currently-attached MCP tools (step 4 of the source, before any
branch). -/
def mustKeep (newly keep : List String) (mcur : Finset String) : Finset String :=
  (newly.toFinset ∩ mcur) ∪ (keep.toFinset ∩ mcur)

/-- `ordered_top_library_tool_info`: dedup the library search result by
effective id, keeping `(id, tool_type)` in rank order. -/
def dedupTop : List LibTool → Finset String → List (String × Option String)
  | [], _ => []
  | t :: rest, seen =>
      match effId t.id t.tool_id with
      | none => dedupTop rest seen
      | some tid =>
          if tid ∈ seen then dedupTop rest seen
          else (tid, t.tool_type) :: dedupTop rest (insert tid seen)

/-- First priority loop of aggressive mode: walk the newly-matched ids and add
those on the agent while the set is below the aggressive target.  (The source
iterates a Python `set`, whose order is unspecified; the claims proved below
are order-independent.) -/
def addNewlyPrio (target : ℕ) (mcur : Finset String) : List String → Finset String → Finset String
  | [], s => s
  | tid :: rest, s =>
      addNewlyPrio target mcur rest
        (if tid ∈ mcur ∧ s.card < target then insert tid s else s)

/-- Second priority loop of aggressive mode: walk the ranked library list and
add ids that are `external_mcp`, already in the must-keep set, not yet chosen,
while below the aggressive target. -/
def addLibPrio (target : ℕ) (keep0 : Finset String) :
    List (String × Option String) → Finset String → Finset String
  | [], s => s
  | (tid, tt) :: rest, s =>
      addLibPrio target keep0 rest
        (if tt = some "external_mcp" ∧ tid ∈ keep0 ∧ tid ∉ s ∧ s.card < target
         then insert tid s else s)

/-- `final_mcp_tool_ids_to_keep` as computed by `_perform_tool_pruning`
(steps 4–5 of the source). -/
def finalKeepSet (tools : List AgentTool) (dropRate : ℚ)
    (keep newly : List String) (lib : List LibTool) : Finset String :=
  let mcur := mcpIdSet tools
  let target := pruneTarget tools dropRate
  let keep0 := mustKeep newly keep mcur
  let top := dedupTop lib ∅
  if target ≤ keep0.card then
    -- aggressive mode
    let aT := aggressiveTarget mcur.card
    if aT < keep0.card then
      addLibPrio aT keep0 top (addNewlyPrio aT mcur newly.dedup ∅)
    else keep0
  else
    -- normal mode: fill remaining slots from the ranked library list
    let addl := ((top.filter fun p =>
        p.2 = some "external_mcp" ∧ p.1 ∈ mcur ∧ p.1 ∉ keep0).map Prod.fst)
    keep0 ∪ (addl.take (target - keep0.card)).toFinset

/-- `mcp_tools_to_detach_ids = current_mcp_tool_ids - final_mcp_tool_ids_to_keep`
(step 5 of the source).  When the agent has no MCP tools the source returns
early with no detachments, which coincides with this set being empty. -/
def pruneDetachSet (tools : List AgentTool) (dropRate : ℚ)
    (keep newly : List String) (lib : List LibTool) : Finset String :=
  mcpIdSet tools \ finalKeepSet tools dropRate keep newly lib

/-! ### Per-item HTTP mutations: `detach_tool` and `attach_tool`
(src/api_server.py)

Each remote call's observable outcome is an oracle value; `detach_tool`
and `attach_tool` catch every exception and map each outcome to a per-item
result dict, and the batches run them under
`asyncio.gather(..., return_exceptions=True)`, which converts any escaping
exception into a per-item entry as well.  The embedding is therefore a total
function from the oracle's answer to the item's result. -/

/-- Observable outcome of one outbound HTTP mutation: a status code with a
body, a client-side timeout, or any other raised exception. -/
inductive HttpResult where
  | status (code : ℕ) (body : String)
  | timedOut
  | exc (msg : String)
  deriving Repr, DecidableEq

/-- Result dict of `detach_tool`: success (200, or 404 treated as
already-detached) or a per-item failure; never an exception. -/
inductive DetachOutcome where
  | ok (tool_id : String) (warning : Option String)
  | failed (tool_id : String) (error : String)
  deriving Repr, DecidableEq

/-- `detach_tool(agent_id, tool_id)` outcome logic (src/api_server.py). -/
def detach_tool (tool_id : String) (r : HttpResult) : DetachOutcome :=
  match r with
  | .status 200 _ => .ok tool_id none
  | .status 404 _ => .ok tool_id (some "Tool not found or already detached")
  | .status c body => .failed tool_id ("HTTP " ++ toString c ++ ": " ++ body)
  | .timedOut => .failed tool_id "Request timed out"
  | .exc m => .failed tool_id m

/-- A tool dict as passed to `attach_tool` (a candidate resolved by
`process_matching_tool`, or any dict carrying the optional `distance` field
that `search_tools` adds to raw search hits). -/
structure ProcTool where
  id : Option String
  tool_id : Option String
  name : String
  distance : Option ℚ
  deriving Repr, DecidableEq

/-- `match_score` computed by `attach_tool`:
`100 * (1 - tool.get("distance", 0)) if "distance" in tool else 100`. -/
def matchScoreOf : Option ℚ → ℚ
  | some d => 100 * (1 - d)
  | none => 100

/-- Result dict of `attach_tool`: success carries `tool_id`, `name` and
`match_score`; failure carries whatever identification was available. -/
inductive AttachOutcome where
  | ok (tool_id : String) (name : String) (match_score : ℚ)
  | failed (tool_id : Option String) (name : String) (error : Option String)
  deriving Repr, DecidableEq

/-- `attach_tool(agent_id, tool)` outcome logic (src/api_server.py).  A tool
with no effective id fails before any HTTP call; otherwise the oracle's
answer for that id decides the outcome, exceptions (incl. timeouts) being
caught and returned as failures. -/
def attach_tool (t : ProcTool) (http : String → HttpResult) : AttachOutcome :=
  match effId t.id t.tool_id with
  | none => .failed none t.name (some "No tool ID available")
  | some tid =>
      match http tid with
      | .status 200 _ => .ok tid t.name (matchScoreOf t.distance)
      | .status _ _ => .failed (some tid) t.name none
      | .timedOut => .failed (some tid) t.name (some "Request timed out")
      | .exc m => .failed (some tid) t.name (some m)

/-- The detach fan-out of `process_tools` and of `_perform_tool_pruning`
step 6: one `detach_tool` per id, gathered with per-item results. -/
def detachBatch (http : String → HttpResult) (ids : List String) : List DetachOutcome :=
  ids.map fun tid => detach_tool tid (http tid)

/-- The attach fan-out of `process_tools`: one `attach_tool` per candidate,
gathered with per-item results. -/
def attachBatch (http : String → HttpResult) (tools : List ProcTool) : List AttachOutcome :=
  tools.map fun t => attach_tool t http

/-! ### Candidate resolution: `process_matching_tool` (src/api_server.py) -/

/-- A search hit as produced by `search_tools`
(src/weaviate_tool_search.py): properties plus the `distance` it always
adds (`1 - score`, defaulting to `0.5` when the metadata carries no score). -/
structure SearchTool where
  name : String
  mcp_server_name : Option String
  distance : ℚ
  deriving Repr, DecidableEq

/-- `distance` stored by `search_tools` on each hit:
`1 - (score if score is not None else 0.5)`. -/
def searchDistance (score : Option ℚ) : ℚ :=
  1 - (match score with | some s => s | none => 1 / 2)

/-- A tool descriptor in the tool catalog cache, as read by
`read_tool_cache` and consulted by `process_matching_tool`.  Cache entries
carry no `distance` key. -/
structure CacheTool where
  id : Option String
  tool_id : Option String
  name : String
  deriving Repr, DecidableEq

/-- Outcome of `register_tool(tool_name, server_name)`: the platform's
response's id fields on HTTP 200, or a failure (non-200 raises, and the
caller catches every exception). -/
inductive RegResult where
  | success (id : Option String) (tool_id : Option String)
  | failure
  deriving Repr, DecidableEq

/-- `register_tool` returns the registered dict only when it carries a
truthy `id` or `tool_id`, normalizing both fields; otherwise `None`. -/
def registerResolve (name : String) (r : RegResult) : Option ProcTool :=
  match r with
  | .failure => none
  | .success i t =>
      match effId i t with
      | none => none
      | some tid => some ⟨some tid, some tid, name, none⟩

/-- `process_matching_tool(tool, letta_tools_cache, mcp_servers)`: resolve a
search hit through the catalog cache by name; if the cache entry is missing
or lacks an id, attempt registration via the hit's `mcp_server_name`; drop
the candidate otherwise.  Both successful paths return a dict without a
`distance` key. -/
def process_matching_tool (cache : List CacheTool)
    (reg : String → String → RegResult) (t : SearchTool) : Option ProcTool :=
  match cache.find? fun c => c.name = t.name with
  | some c =>
      match effId c.id c.tool_id with
      | some tid => some ⟨some tid, some tid, c.name, none⟩
      | none => tryRegister reg t
  | none => tryRegister reg t
where
  tryRegister (reg : String → String → RegResult) (t : SearchTool) : Option ProcTool :=
    match t.mcp_server_name with
    | some server => if server = "" then none else registerResolve t.name (reg server t.name)
    | none => none

/-! ### `process_tools` and the attach endpoint (src/api_server.py) -/

/-- Step 2 of `attach_tools`: the agent's unique MCP tools (first occurrence
per effective id, `external_mcp` only, ids normalized onto both fields). -/
def dedupMcpTools : List AgentTool → Finset String → List (String × AgentTool)
  | [], _ => []
  | t :: rest, seen =>
      if t.tool_type = some "external_mcp" then
        match effId t.id t.tool_id with
        | none => dedupMcpTools rest seen
        | some tid =>
            if tid ∈ seen then dedupMcpTools rest seen
            else (tid, t) :: dedupMcpTools rest (insert tid seen)
      else dedupMcpTools rest seen

/-- `keep_tool_ids` of `process_tools`: the request's `keep_tools` (truthy
entries) plus the ids of the candidates about to be attached. -/
def processKeepIds (keep : List String) (matching : List ProcTool) : Finset String :=
  (keep.filter fun s => s ≠ "").toFinset ∪
    (matching.filterMap fun t => effId t.id t.tool_id).toFinset

/-- `tools_to_detach` of `process_tools`: current unique MCP tool ids not in
the keep set, in list order. -/
def processDetachIds (mcp : List (String × AgentTool)) (keepIds : Finset String) : List String :=
  (mcp.map Prod.fst).filter fun tid => tid ∉ keepIds

/-- Response of the `/api/v1/tools/attach` endpoint on its non-exception
path (`attach_tools` in src/api_server.py). -/
structure AttachResponse where
  success : Bool
  detached_tools : List String
  failed_detachments : List String
  successful_attachments : List (String × String × ℚ)  -- (tool_id, name, match_score)
  failed_attachments_count : ℕ
  pruneInvoked : Bool
  deriving Repr, DecidableEq

/-- The `attach_tools` endpoint flow: fetch the agent's tools, dedup its MCP
tools, search (oracle `searchOut`), resolve candidates through the cache or
registration, detach non-kept MCP tools, attach the resolved candidates, and
chain pruning iff the query is non-empty (truthy) and some attachment
succeeded.  Remote answers are the oracle arguments. -/
def attach_tools (query : String) (keep : List String)
    (agentTools : List AgentTool) (searchOut : List SearchTool)
    (cache : List CacheTool) (reg : String → String → RegResult)
    (detachHttp attachHttp : String → HttpResult) : AttachResponse :=
  let mcp := dedupMcpTools agentTools ∅
  let processed := searchOut.filterMap (process_matching_tool cache reg)
  let keepIds := processKeepIds keep processed
  let dIds := processDetachIds mcp keepIds
  let dRes := detachBatch detachHttp dIds
  let aRes := attachBatch attachHttp processed
  let okAttach := aRes.filterMap fun o => match o with
    | .ok tid n s => some (tid, n, s)
    | .failed _ _ _ => none
  { success := true
    detached_tools := dRes.filterMap fun o => match o with
      | .ok tid _ => some tid | .failed _ _ => none
    failed_detachments := dRes.filterMap fun o => match o with
      | .ok _ _ => none | .failed tid _ => some tid
    successful_attachments := okAttach
    failed_attachments_count := aRes.length - okAttach.length
    pruneInvoked := decide (query ≠ "" ∧ okAttach ≠ []) }

/-! ### Ordering of the phases within one attach call (§5 of the spec)

`process_tools` awaits the detach `gather` before it creates any attach
task, `attach_tools` awaits `process_tools` before it calls
`_perform_tool_pruning`.  The trace below records one request and one
return event per mutation; each `gather` phase appears as a block.  The
order of events inside a block is not determined by the code (the calls are
concurrent), but every event of an earlier block precedes every event of a
later block — that is the invariant the theorems state. -/

inductive EngineEvent where
  | detachReq (tool_id : String)
  | detachRet (tool_id : String)
  | attachReq (tool_id : Option String)
  | attachRet (tool_id : Option String)
  | pruneStart
  deriving Repr, DecidableEq

/-- Phase number of an event, increasing along one attach call. -/
def phaseOf : EngineEvent → ℕ
  | .detachReq _ => 0
  | .detachRet _ => 1
  | .attachReq _ => 2
  | .attachRet _ => 3
  | .pruneStart => 4

/-- Event trace of one `attach_tools` call (one representative interleaving;
block boundaries are the code's `await` points). -/
def attachFlowTrace (query : String) (keep : List String)
    (agentTools : List AgentTool) (searchOut : List SearchTool)
    (cache : List CacheTool) (reg : String → String → RegResult)
    (attachHttp : String → HttpResult) : List EngineEvent :=
  let mcp := dedupMcpTools agentTools ∅
  let processed := searchOut.filterMap (process_matching_tool cache reg)
  let dIds := processDetachIds mcp (processKeepIds keep processed)
  let okAttach := (attachBatch attachHttp processed).filterMap fun o => match o with
    | .ok tid n s => some (tid, n, s)
    | .failed _ _ _ => none
  (dIds.map .detachReq) ++ ((dIds.map .detachRet) ++
    ((processed.map fun t => .attachReq (effId t.id t.tool_id)) ++
      ((processed.map fun t => .attachRet (effId t.id t.tool_id)) ++
        (if query ≠ "" ∧ okAttach ≠ [] then [.pruneStart] else []))))

/-! ### Health endpoint: `health_check` (src/api_server.py) -/

inductive HealthState where
  | ok
  | degraded
  | error
  deriving Repr, DecidableEq

/-- `overall_status_string` from the three subsystem checks: the Vector
Store (Weaviate connected and ready), the in-memory tool cache, and the
MCP-servers cache file. -/
def overallHealth (weaviate_ok tool_cache_ok mcp_cache_ok : Bool) : HealthState :=
  if weaviate_ok && tool_cache_ok && mcp_cache_ok then .ok
  else if weaviate_ok then .degraded
  else .error

/-- HTTP status of the health endpoint:
`200 if overall_status_string == "OK" else 503`. -/
def healthHttpCode (weaviate_ok tool_cache_ok mcp_cache_ok : Bool) : ℕ :=
  if overallHealth weaviate_ok tool_cache_ok mcp_cache_ok = .ok then 200 else 503

/-! ### Sync cycle: obsolescence filter and the tool catalog cache
(src/fetch_all_tools.py, src/sync_service.py) -/

/-- A tool descriptor as held in `tools_by_name` at the end of
`fetch_all_tools_async`, with the fields the obsolescence filter reads. -/
structure CatTool where
  name : String
  tool_type : Option String
  mcp_server_name : Option String
  deriving Repr, DecidableEq

/-- The stricter filter of `fetch_all_tools_async`: an `external_mcp` tool
survives only when its `mcp_server_name` is truthy and names an active
server; every other tool is kept. -/
def keepAfterFilter (active : List String) (t : CatTool) : Bool :=
  if t.tool_type = some "external_mcp" then
    match t.mcp_server_name with
    | none => false
    | some s => if s = "" then false else s ∈ active
  else true

/-- `all_tools_with_origin`, the list `fetch_all_tools_async` returns:
`tools_by_name` filtered against the active-server set.  `sync_tools`
writes exactly this list to the tool catalog cache
(`write_tool_cache(letta_tools)`), so after a completed sync cycle the
cache holds this filtered list. -/
def toolCacheAfterSync (fetched : List CatTool) (activeServers : List String) : List CatTool :=
  fetched.filter (keepAfterFilter activeServers)

/-! ### Cache writers: `write_tool_cache` and `write_mcp_servers_cache`
(src/sync_service.py)

Both writers are embedded as the sequence of file-system operations they
perform.  The spec-side pattern (`specAtomicWrite`) is written from the
spec's words — "write to temp, fsync, rename" — to be compared with the
sequences the source performs. -/

inductive FsOp where
  | openTrunc (path : String)          -- `open(path, mode='w')`: truncates
  | writeStr (path : String) (data : String)
  | closeFile (path : String)
  | writeTemp (path : String) (data : String)
  | fsyncFile (path : String)
  | renameFile (src dst : String)
  deriving Repr, DecidableEq

def TOOL_CACHE_FILE_PATH : String := "/app/runtime_cache/tool_cache.json"

def MCP_SERVERS_CACHE_FILE_PATH : String := "/app/runtime_cache/mcp_servers_cache.json"

/-- `write_tool_cache(tools_data)`: `aiofiles.open(path, mode='w')` then one
`write` of the serialized JSON, then close.  No temporary file, no fsync,
no rename. -/
def write_tool_cache (data : String) : List FsOp :=
  [.openTrunc TOOL_CACHE_FILE_PATH,
   .writeStr TOOL_CACHE_FILE_PATH data,
   .closeFile TOOL_CACHE_FILE_PATH]

/-- `write_mcp_servers_cache(servers_data)`: same direct-write shape on the
MCP-servers cache path. -/
def write_mcp_servers_cache (data : String) : List FsOp :=
  [.openTrunc MCP_SERVERS_CACHE_FILE_PATH,
   .writeStr MCP_SERVERS_CACHE_FILE_PATH data,
   .closeFile MCP_SERVERS_CACHE_FILE_PATH]

/-- Modelled from the spec: "`write(sequence)`: atomic-from-the-reader's
perspective — write to temp, fsync, rename".  The operation sequence a
conforming writer performs on `target`. -/
def specAtomicWrite (target : String) (ops : List FsOp) : Prop :=
  ∃ tmp data, tmp ≠ target ∧
    ops = [.writeTemp tmp data, .fsyncFile tmp, .renameFile tmp target]

/-- File-system state: content of each path (`none` = absent). -/
def FsState := String → Option String

/-- Effect of one operation on the file system. -/
def applyOp (fs : FsState) : FsOp → FsState
  | .openTrunc p => fun q => if q = p then some "" else fs q
  | .writeStr p d => fun q => if q = p then some ((fs p).getD "" ++ d) else fs q
  | .closeFile _ => fs
  | .writeTemp p d => fun q => if q = p then some d else fs q
  | .fsyncFile _ => fs
  | .renameFile src dst => fun q =>
      if q = dst then fs src else if q = src then none else fs q

/-- Run a sequence of operations from an initial state. -/
def runOps (fs : FsState) (ops : List FsOp) : FsState :=
  ops.foldl applyOp fs

/-- Operations a direct (non-atomic) writer performs: truncating open,
in-place write, close — and nothing from the temp-fsync-rename repertoire. -/
def directWriteOnly : FsOp → Bool
  | .openTrunc _ => true
  | .writeStr _ _ => true
  | .closeFile _ => true
  | .writeTemp _ _ => false
  | .fsyncFile _ => false
  | .renameFile _ _ => false

/-- Modelled from the spec and claim C8: "Overall health is OK iff all three
pass; DEGRADED if only the Vector Store passes; ERROR otherwise", with
"200 iff OK and 503 otherwise" — stated to be compared against
`overallHealth` and `healthHttpCode` from the source. -/
def healthSpecClaim (w tc mc : Bool) : Prop :=
  (overallHealth w tc mc = .ok ↔ (w = true ∧ tc = true ∧ mc = true)) ∧
  ((w = true ∧ tc = false ∧ mc = false) → overallHealth w tc mc = .degraded) ∧
  ((¬(w = true ∧ tc = true ∧ mc = true) ∧ ¬(w = true ∧ tc = false ∧ mc = false)) →
    overallHealth w tc mc = .error) ∧
  (healthHttpCode w tc mc = 200 ↔ overallHealth w tc mc = .ok) ∧
  (healthHttpCode w tc mc ≠ 200 → healthHttpCode w tc mc = 503)

/-! ### Concrete instances used by witnesses and counterexamples -/

/-- An agent with two attached MCP tools and one core tool. -/
def wTools : List AgentTool :=
  [⟨some "m1", none, "mcp-one", some "external_mcp"⟩,
   ⟨some "m2", none, "mcp-two", some "external_mcp"⟩,
   ⟨some "c1", none, "core-one", some "letta_core"⟩]

/-- Remote oracle where tool `b` raises and everything else returns 200. -/
def wHttpA : String → HttpResult :=
  fun tid => if tid = "b" then .exc "boom" else .status 200 "ok"

/-- Remote oracle where tool `b` answers 500 and everything else 200. -/
def wHttpB : String → HttpResult :=
  fun tid => if tid = "b" then .status 500 "err" else .status 200 "ok"

/-- A fetched catalog with one live MCP tool, one orphaned MCP tool and one
core tool. -/
def wCatalog : List CatTool :=
  [⟨"alpha", some "external_mcp", some "srv-a"⟩,
   ⟨"beta", some "external_mcp", none⟩,
   ⟨"gamma", some "letta_core", none⟩]

/-- Initial file-system state: the tool cache file holds earlier data. -/
def tornFs : FsState :=
  fun q => if q = TOOL_CACHE_FILE_PATH then some "old" else none

/-- An agent holding one stale MCP tool, for the attach-flow instances. -/
def wAgentTools : List AgentTool :=
  [⟨some "x", none, "old-mcp", some "external_mcp"⟩]

/-- One search hit (hybrid-search distance `0`, i.e. a perfect score). -/
def wSearchHit : List SearchTool :=
  [⟨"send_message", some "srv", 0⟩]

/-- One search hit whose hybrid-search distance is `3/5` (score `2/5`). -/
def wSearchFar : List SearchTool :=
  [⟨"send_message", some "srv", 3 / 5⟩]

/-- Catalog cache resolving the search hit to platform id `tool-1`. -/
def wCache : List CacheTool :=
  [⟨some "tool-1", none, "send_message"⟩]

/-- Registration oracle that always fails (never consulted in the
cache-resolved instances). -/
def noReg : String → String → RegResult := fun _ _ => .failure

/-- Remote oracle answering 200 to every mutation. -/
def okHttp : String → HttpResult := fun _ => .status 200 "ok"

/-! ## Helper lemmas -/

theorem mem_mcpIdSet {tools : List AgentTool} {tid : String} :
    tid ∈ mcpIdSet tools ↔
      ∃ t ∈ tools, t.tool_type = some "external_mcp" ∧ effId t.id t.tool_id = some tid := by
  constructor
  · intro h
    rw [mcpIdSet, List.mem_toFinset] at h
    rcases List.mem_map.mp h with ⟨p, hp, hfst⟩
    rcases List.mem_filter.mp hp with ⟨hw, htype⟩
    rcases List.mem_filterMap.mp hw with ⟨t, ht, hmap⟩
    rcases Option.map_eq_some'.mp hmap with ⟨a, ha, hpair⟩
    cases hpair
    subst hfst
    exact ⟨t, ht, of_decide_eq_true htype, ha⟩
  · rintro ⟨t, ht, htype, hid⟩
    rw [mcpIdSet, List.mem_toFinset]
    refine List.mem_map.mpr ⟨(tid, t), List.mem_filter.mpr ⟨?_, decide_eq_true htype⟩, rfl⟩
    exact List.mem_filterMap.mpr ⟨t, ht, by rw [hid]; rfl⟩

theorem mustKeep_subset (newly keep : List String) (mcur : Finset String) :
    mustKeep newly keep mcur ⊆ mcur :=
  Finset.union_subset Finset.inter_subset_right Finset.inter_subset_right

theorem addNewlyPrio_card_le (target : ℕ) (mcur : Finset String) (l : List String)
    (s : Finset String) (h : s.card ≤ target) :
    (addNewlyPrio target mcur l s).card ≤ target := by
  induction l generalizing s with
  | nil => simpa [addNewlyPrio] using h
  | cons a rest ih =>
      simp only [addNewlyPrio]
      split
      · next hc =>
          exact ih _ (le_trans (Finset.card_insert_le a s) hc.2)
      · exact ih _ h

theorem addLibPrio_card_le (target : ℕ) (keep0 : Finset String)
    (l : List (String × Option String)) (s : Finset String) (h : s.card ≤ target) :
    (addLibPrio target keep0 l s).card ≤ target := by
  induction l generalizing s with
  | nil => simpa [addLibPrio] using h
  | cons p rest ih =>
      simp only [addLibPrio]
      split
      · next hc =>
          exact ih _ (le_trans (Finset.card_insert_le p.1 s) hc.2.2.2)
      · exact ih _ h

/-- In aggressive mode the kept set never exceeds the aggressive target. -/
theorem finalKeepSet_card_le_aggressive (tools : List AgentTool) (dropRate : ℚ)
    (keep newly : List String) (lib : List LibTool)
    (hK : pruneTarget tools dropRate ≤ (mustKeep newly keep (mcpIdSet tools)).card) :
    (finalKeepSet tools dropRate keep newly lib).card ≤
      aggressiveTarget (mcpIdSet tools).card := by
  have hbranch : finalKeepSet tools dropRate keep newly lib =
      if aggressiveTarget (mcpIdSet tools).card <
          (mustKeep newly keep (mcpIdSet tools)).card then
        addLibPrio (aggressiveTarget (mcpIdSet tools).card)
          (mustKeep newly keep (mcpIdSet tools)) (dedupTop lib ∅)
          (addNewlyPrio (aggressiveTarget (mcpIdSet tools).card) (mcpIdSet tools)
            newly.dedup ∅)
      else mustKeep newly keep (mcpIdSet tools) := by
    unfold finalKeepSet
    rw [if_pos hK]
  rw [hbranch]
  split
  · exact addLibPrio_card_le _ _ _ _
      (addNewlyPrio_card_le _ _ _ _ (by simp))
  · next h => exact le_of_not_lt h

/-! ## Claim theorems, C1 - C3 (prune engine) -/

/-- C1: no `prune` call ever detaches a tool whose `tool_type` is not
`external_mcp`: the detach set is a subset of the agent's currently
attached `external_mcp` tool ids, and every detached id belongs to an
`external_mcp` tool attached before the call — so every core tool attached
before the call is still attached after it. -/
theorem C1_core_invariance (tools : List AgentTool) (dropRate : ℚ)
    (keep newly : List String) (lib : List LibTool) :
    pruneDetachSet tools dropRate keep newly lib ⊆ mcpIdSet tools ∧
    ∀ tid ∈ pruneDetachSet tools dropRate keep newly lib,
      ∃ t ∈ tools, t.tool_type = some "external_mcp" ∧ effId t.id t.tool_id = some tid := by
  refine ⟨Finset.sdiff_subset, fun tid htid => ?_⟩
  exact mem_mcpIdSet.mp (Finset.sdiff_subset htid)

/-- Witness for C1: on a concrete agent with MCP tools `m1`, `m2` and core
tool `c1`, `m1` is detached and the theorem produces the attached
`external_mcp` tool it came from. -/
theorem C1_witness :
    ∃ t ∈ wTools, t.tool_type = some "external_mcp" ∧ effId t.id t.tool_id = some "m1" := by
  have hc : (mcpIdSet wTools).card = 2 := by decide
  have ht : pruneTarget wTools 1 = 0 := by
    unfold pruneTarget; rw [hc]; norm_num
  have hmem : "m1" ∈ pruneDetachSet wTools 1 [] [] [] := by
    unfold pruneDetachSet finalKeepSet
    rw [ht]
    decide
  exact (C1_core_invariance wTools 1 [] [] []).2 "m1" hmem

/-- C2: in normal mode — when the must-keep set
`(keep ∪ newly) ∩ M_cur` is smaller than the target
`floor(N·(1−drop_rate))` — every id of the must-keep set is in the final
kept set and no detachment is issued for it. -/
theorem C2_keep_set_normal_mode (tools : List AgentTool) (dropRate : ℚ)
    (keep newly : List String) (lib : List LibTool)
    (hN : 0 < (mcpIdSet tools).card)
    (hK : (mustKeep newly keep (mcpIdSet tools)).card < pruneTarget tools dropRate) :
    ∀ tid ∈ mustKeep newly keep (mcpIdSet tools),
      tid ∈ finalKeepSet tools dropRate keep newly lib ∧
      tid ∉ pruneDetachSet tools dropRate keep newly lib := by
  intro tid htid
  have hfin : tid ∈ finalKeepSet tools dropRate keep newly lib := by
    unfold finalKeepSet
    rw [if_neg (not_le.mpr hK)]
    exact Finset.mem_union_left _ htid
  refine ⟨hfin, ?_⟩
  unfold pruneDetachSet
  simp [Finset.mem_sdiff, hfin]

/-- Witness for C2: agent `wTools`, drop rate 0, `keep = [m1]` — normal
mode applies and `m1` stays attached. -/
theorem C2_witness :
    "m1" ∈ finalKeepSet wTools 0 ["m1"] [] [] ∧
    "m1" ∉ pruneDetachSet wTools 0 ["m1"] [] [] := by
  have hc : (mcpIdSet wTools).card = 2 := by decide
  have ht : pruneTarget wTools 0 = 2 := by
    unfold pruneTarget
    rw [hc]
    norm_num
    decide
  refine C2_keep_set_normal_mode wTools 0 ["m1"] [] [] (by decide) ?_ "m1" (by decide)
  rw [ht]; decide

/-- C3: aggressive-mode progress — when the must-keep set already reaches
the target, at least `N − max(1, floor(0.8·N))` MCP tools are selected for
detachment. -/
theorem C3_aggressive_mode_progress (tools : List AgentTool) (dropRate : ℚ)
    (keep newly : List String) (lib : List LibTool)
    (hN : 0 < (mcpIdSet tools).card)
    (hK : pruneTarget tools dropRate ≤ (mustKeep newly keep (mcpIdSet tools)).card) :
    (mcpIdSet tools).card - aggressiveTarget (mcpIdSet tools).card ≤
      (pruneDetachSet tools dropRate keep newly lib).card := by
  have hF := finalKeepSet_card_le_aggressive tools dropRate keep newly lib hK
  calc (mcpIdSet tools).card - aggressiveTarget (mcpIdSet tools).card
      ≤ (mcpIdSet tools).card - (finalKeepSet tools dropRate keep newly lib).card :=
        Nat.sub_le_sub_left hF _
    _ ≤ (pruneDetachSet tools dropRate keep newly lib).card :=
        Finset.le_card_sdiff _ _

/-- Witness for C3: agent `wTools`, drop rate 0, all current MCP ids in the
keep list — aggressive mode applies and at least one tool is detached. -/
theorem C3_witness :
    (mcpIdSet wTools).card - aggressiveTarget (mcpIdSet wTools).card ≤
      (pruneDetachSet wTools 0 ["m1", "m2"] [] []).card := by
  have hc : (mcpIdSet wTools).card = 2 := by decide
  have ht : pruneTarget wTools 0 = 2 := by
    unfold pruneTarget
    rw [hc]
    norm_num
    decide
  refine C3_aggressive_mode_progress wTools 0 ["m1", "m2"] [] [] (by decide) ?_
  rw [ht]; decide

/-! ## Claim theorem, C4 (batch isolation) -/

/-- C4: a batch of N detach (or attach) mutations returns exactly N
per-item outcomes — the batch functions are total, mirroring the source's
per-item exception capture — and the outcome at any position depends only
on that item's own remote answer: changing the oracle anywhere else leaves
it untouched. -/
theorem C4_batch_isolation (ids : List String) (o o' : String → HttpResult)
    (tools : List ProcTool) (a a' : String → HttpResult) :
    (detachBatch o ids).length = ids.length ∧
    (attachBatch a tools).length = tools.length ∧
    (∀ (i : ℕ) (tid : String), ids[i]? = some tid → o tid = o' tid →
      (detachBatch o ids)[i]? = (detachBatch o' ids)[i]?) ∧
    (∀ (i : ℕ) (t : ProcTool), tools[i]? = some t →
      (∀ tid, effId t.id t.tool_id = some tid → a tid = a' tid) →
      (attachBatch a tools)[i]? = (attachBatch a' tools)[i]?) := by
  refine ⟨by simp [detachBatch], by simp [attachBatch], ?_, ?_⟩
  · intro i tid hget hoo
    simp only [detachBatch, List.getElem?_map, hget, Option.map_some']
    rw [hoo]
  · intro i t hget hag
    simp only [attachBatch, List.getElem?_map, hget, Option.map_some']
    have heq : attach_tool t a = attach_tool t a' := by
      cases he : effId t.id t.tool_id with
      | none => simp [attach_tool, he]
      | some tid => simp [attach_tool, he, hag tid he]
    rw [heq]

/-- Witness for C4: a concrete two-element batch where the second item
raises under one oracle and answers 500 under another; the first item's
outcome is identical under both, and the batch has exactly two outcomes. -/
theorem C4_witness :
    (detachBatch wHttpA ["a", "b"]).length = ["a", "b"].length ∧
    (detachBatch wHttpA ["a", "b"])[0]? = (detachBatch wHttpB ["a", "b"])[0]? := by
  refine ⟨(C4_batch_isolation ["a", "b"] wHttpA wHttpB [] wHttpA wHttpA).1, ?_⟩
  exact (C4_batch_isolation ["a", "b"] wHttpA wHttpB [] wHttpA wHttpA).2.2.1 0 "a"
    (by decide) (by decide)

/-! ## Claim theorem, C5 (obsolescence filter) -/

/-- C5: after a sync cycle completes, the tool catalog cache (the filtered
list `fetch_all_tools_async` returns and `sync_tools` writes out) contains
no `external_mcp` descriptor whose `mcp_server_name` is missing, empty, or
not among the active MCP servers fetched in that cycle. -/
theorem C5_obsolescence_filter (fetched : List CatTool) (active : List String) :
    ∀ t ∈ toolCacheAfterSync fetched active,
      t.tool_type = some "external_mcp" →
      ∃ s, t.mcp_server_name = some s ∧ s ≠ "" ∧ s ∈ active := by
  intro t ht htype
  have hk : keepAfterFilter active t = true := (List.mem_filter.mp ht).2
  unfold keepAfterFilter at hk
  rw [if_pos htype] at hk
  cases hs : t.mcp_server_name with
  | none =>
      rw [hs] at hk
      simp at hk
  | some s =>
      rw [hs] at hk
      by_cases hse : s = ""
      · subst hse
        simp at hk
      · refine ⟨s, rfl, hse, ?_⟩
        simp [hse] at hk
        exact hk

/-- Witness for C5: from a concrete fetched catalog (one live MCP tool, one
orphaned MCP tool, one core tool) with active server `srv-a`, the surviving
MCP tool names an active server. -/
theorem C5_witness :
    ∃ s, (⟨"alpha", some "external_mcp", some "srv-a"⟩ : CatTool).mcp_server_name = some s ∧
      s ≠ "" ∧ s ∈ ["srv-a"] :=
  C5_obsolescence_filter wCatalog ["srv-a"]
    ⟨"alpha", some "external_mcp", some "srv-a"⟩ (by decide) rfl

/-! ## Claim theorems, C6 (cache-write atomicity) -/

/-- Counterexample to C6: `write_tool_cache` is not the temp-fsync-rename
sequence the claim describes, and a reader running between the truncating
open and the write observes an empty file — neither the old contents nor
the written data. -/
theorem C6_counterexample :
    ¬ specAtomicWrite TOOL_CACHE_FILE_PATH (write_tool_cache "[1]") ∧
    runOps tornFs (List.take 1 (write_tool_cache "[1]")) TOOL_CACHE_FILE_PATH = some "" ∧
    tornFs TOOL_CACHE_FILE_PATH = some "old" ∧
    runOps tornFs (write_tool_cache "[1]") TOOL_CACHE_FILE_PATH = some "[1]" ∧
    some "" ≠ some "old" ∧ (some "" : Option String) ≠ some "[1]" := by
  refine ⟨?_, by decide, by decide, by decide, by decide, by decide⟩
  rintro ⟨tmp, data, hne, h⟩
  simp [write_tool_cache] at h

/-- C6 amended: both cache writers perform a direct truncating write on the
target — no temporary file, no fsync, no rename.  A reader that runs
entirely after the write sees exactly the written data, but a reader
between the truncating open and the write observes an empty (torn) file. -/
theorem C6_amended (toolData serverData : String) (fs : FsState) :
    (write_tool_cache toolData).all directWriteOnly = true ∧
    (write_mcp_servers_cache serverData).all directWriteOnly = true ∧
    runOps fs (write_tool_cache toolData) TOOL_CACHE_FILE_PATH = some toolData ∧
    runOps fs (write_mcp_servers_cache serverData) MCP_SERVERS_CACHE_FILE_PATH =
      some serverData ∧
    runOps fs (List.take 1 (write_tool_cache toolData)) TOOL_CACHE_FILE_PATH = some "" := by
  refine ⟨rfl, rfl, ?_, ?_, ?_⟩ <;>
    simp [runOps, applyOp, write_tool_cache, write_mcp_servers_cache]

/-! ## Claim theorem, C7 (ordering within one attach call) -/

theorem pairwise_phase_const {l : List EngineEvent} {c : ℕ}
    (h : ∀ a ∈ l, phaseOf a = c) :
    l.Pairwise fun a b => phaseOf a ≤ phaseOf b := by
  induction l with
  | nil => exact List.Pairwise.nil
  | cons x xs ih =>
      refine List.Pairwise.cons (fun b hb => ?_)
        (ih fun a ha => h a (List.mem_cons_of_mem _ ha))
      rw [h x (List.mem_cons_self _ _), h b (List.mem_cons_of_mem _ hb)]

theorem pairwise_phase_block {l₁ l₂ : List EngineEvent} {c : ℕ}
    (h₁ : ∀ a ∈ l₁, phaseOf a = c)
    (h₂ : l₂.Pairwise fun a b => phaseOf a ≤ phaseOf b)
    (hlb : ∀ b ∈ l₂, c ≤ phaseOf b) :
    (l₁ ++ l₂).Pairwise fun a b => phaseOf a ≤ phaseOf b := by
  refine List.pairwise_append.mpr ⟨pairwise_phase_const h₁, h₂, ?_⟩
  intro a ha b hb
  rw [h₁ a ha]
  exact hlb b hb

/-- The phases of one attach call appear in nondecreasing order along its
trace: detach requests, detach returns, attach requests, attach returns,
then (possibly) the chained prune. -/
theorem attachFlowTrace_phase_mono (query : String) (keep : List String)
    (agentTools : List AgentTool) (searchOut : List SearchTool)
    (cache : List CacheTool) (reg : String → String → RegResult)
    (attachHttp : String → HttpResult) :
    (attachFlowTrace query keep agentTools searchOut cache reg attachHttp).Pairwise
      fun a b => phaseOf a ≤ phaseOf b := by
  unfold attachFlowTrace
  have hA : ∀ (l : List String) a, a ∈ l.map EngineEvent.detachReq → phaseOf a = 0 := by
    intro l a ha; rcases List.mem_map.mp ha with ⟨x, _, rfl⟩; rfl
  have hB : ∀ (l : List String) a, a ∈ l.map EngineEvent.detachRet → phaseOf a = 1 := by
    intro l a ha; rcases List.mem_map.mp ha with ⟨x, _, rfl⟩; rfl
  have hC : ∀ (l : List ProcTool) a,
      a ∈ l.map (fun t => EngineEvent.attachReq (effId t.id t.tool_id)) → phaseOf a = 2 := by
    intro l a ha; rcases List.mem_map.mp ha with ⟨x, _, rfl⟩; rfl
  have hD : ∀ (l : List ProcTool) a,
      a ∈ l.map (fun t => EngineEvent.attachRet (effId t.id t.tool_id)) → phaseOf a = 3 := by
    intro l a ha; rcases List.mem_map.mp ha with ⟨x, _, rfl⟩; rfl
  have hE : ∀ (p : Prop) [Decidable p] a,
      a ∈ (if p then [EngineEvent.pruneStart] else []) → phaseOf a = 4 := by
    intro p hp a ha
    split at ha
    · rcases List.mem_singleton.mp ha with rfl; rfl
    · simp at ha
  refine pairwise_phase_block (hA _) ?_ (fun b _ => Nat.zero_le _)
  refine pairwise_phase_block (hB _) ?_ ?_
  · refine pairwise_phase_block (hC _) ?_ ?_
    · refine pairwise_phase_block (hD _) ?_ ?_
      · exact pairwise_phase_const (hE _)
      · intro b hb
        rw [hE _ b hb]
        omega
    · intro b hb
      rcases List.mem_append.mp hb with h | h
      · rw [hD _ b h]; omega
      · rw [hE _ b h]; omega
  · intro b hb
    rcases List.mem_append.mp hb with h | h
    · rw [hC _ b h]; omega
    · rcases List.mem_append.mp h with h' | h'
      · rw [hD _ b h']; omega
      · rw [hE _ b h']; omega

/-- C7: within one attach call, every detachment return precedes every
attachment request, and the chained prune (when invoked) follows every
attachment return. -/
theorem C7_phase_ordering (query : String) (keep : List String)
    (agentTools : List AgentTool) (searchOut : List SearchTool)
    (cache : List CacheTool) (reg : String → String → RegResult)
    (attachHttp : String → HttpResult) :
    (∀ (i j : Fin (attachFlowTrace query keep agentTools searchOut cache reg attachHttp).length)
        (x : String) (y : Option String),
      (attachFlowTrace query keep agentTools searchOut cache reg attachHttp).get i =
          .detachRet x →
      (attachFlowTrace query keep agentTools searchOut cache reg attachHttp).get j =
          .attachReq y →
      (i : ℕ) < (j : ℕ)) ∧
    (∀ (i j : Fin (attachFlowTrace query keep agentTools searchOut cache reg attachHttp).length)
        (x : Option String),
      (attachFlowTrace query keep agentTools searchOut cache reg attachHttp).get i =
          .attachRet x →
      (attachFlowTrace query keep agentTools searchOut cache reg attachHttp).get j =
          .pruneStart →
      (i : ℕ) < (j : ℕ)) := by
  have hp := List.pairwise_iff_get.mp
    (attachFlowTrace_phase_mono query keep agentTools searchOut cache reg attachHttp)
  constructor
  · intro i j x y hi hj
    rcases lt_trichotomy (i : ℕ) (j : ℕ) with h | h | h
    · exact h
    · exfalso
      have hij : i = j := Fin.ext h
      subst hij
      rw [hi] at hj
      exact EngineEvent.noConfusion hj
    · exfalso
      have hle := hp j i (Fin.lt_def.mpr h)
      rw [hi, hj] at hle
      simp [phaseOf] at hle
  · intro i j x hi hj
    rcases lt_trichotomy (i : ℕ) (j : ℕ) with h | h | h
    · exact h
    · exfalso
      have hij : i = j := Fin.ext h
      subst hij
      rw [hi] at hj
      exact EngineEvent.noConfusion hj
    · exfalso
      have hle := hp j i (Fin.lt_def.mpr h)
      rw [hi, hj] at hle
      simp [phaseOf] at hle

/-- Witness for C7: in a concrete attach call (one detachment, one
attachment, chained prune), the detach return at index 1 precedes the
attach request at index 2. -/
theorem C7_witness : (1 : ℕ) < 2 :=
  (C7_phase_ordering "chat" [] wAgentTools wSearchHit wCache noReg okHttp).1
    ⟨1, by decide⟩ ⟨2, by decide⟩ "x" (some "tool-1") (by decide) (by decide)

/-! ## Claim theorems, C8 (health endpoint) -/

/-- Counterexample to C8: when the Vector Store and the in-memory tool
cache pass but the MCP-servers cache file fails, the claim's case split
("DEGRADED if only the Vector Store passes; ERROR otherwise") demands
ERROR, yet the endpoint reports DEGRADED. -/
theorem C8_counterexample : ¬ healthSpecClaim true true false := by
  unfold healthSpecClaim
  decide

/-- C8 amended: status is OK iff all three checks pass, DEGRADED iff the
Vector Store passes but not all three, ERROR iff the Vector Store fails;
the HTTP code is 200 iff the status is OK and 503 otherwise. -/
theorem C8_health_logic (w tc mc : Bool) :
    (overallHealth w tc mc = .ok ↔ (w = true ∧ tc = true ∧ mc = true)) ∧
    (overallHealth w tc mc = .degraded ↔ (w = true ∧ ¬(tc = true ∧ mc = true))) ∧
    (overallHealth w tc mc = .error ↔ w = false) ∧
    (healthHttpCode w tc mc = 200 ↔ overallHealth w tc mc = .ok) ∧
    (healthHttpCode w tc mc ≠ 200 → healthHttpCode w tc mc = 503) := by
  cases w <;> cases tc <;> cases mc <;> decide

/-- Witness for C8: a mixed cache failure yields DEGRADED. -/
theorem C8_witness : overallHealth true true false = HealthState.degraded :=
  (C8_health_logic true true false).2.1.mpr (by decide)

/-! ## Claim theorems, C9 (attach with empty query) -/

/-- Counterexample to C9: with an empty query the endpoint still searches,
resolves and attaches — here one candidate is attached (the claim says 0
attachments) although pruning is indeed not invoked. -/
theorem C9_counterexample :
    (attach_tools "" [] [] wSearchHit wCache noReg okHttp okHttp).successful_attachments.length
        ≠ 0 ∧
    (attach_tools "" [] [] wSearchHit wCache noReg okHttp okHttp).pruneInvoked = false := by
  constructor <;> decide

/-- C9 amended: for every attach call with an empty query, pruning is not
invoked and the call returns success; the number of attachments is bounded
by the number of search candidates, but need not be 0. -/
theorem C9_empty_query (keep : List String) (agentTools : List AgentTool)
    (searchOut : List SearchTool) (cache : List CacheTool)
    (reg : String → String → RegResult) (dHttp aHttp : String → HttpResult) :
    (attach_tools "" keep agentTools searchOut cache reg dHttp aHttp).pruneInvoked = false ∧
    (attach_tools "" keep agentTools searchOut cache reg dHttp aHttp).success = true ∧
    (attach_tools "" keep agentTools searchOut cache reg dHttp aHttp).successful_attachments.length
      ≤ searchOut.length := by
  refine ⟨by simp [attach_tools], rfl, ?_⟩
  calc (attach_tools "" keep agentTools searchOut cache reg dHttp aHttp).successful_attachments.length
      ≤ (attachBatch aHttp (searchOut.filterMap (process_matching_tool cache reg))).length :=
        List.length_filterMap_le _ _
    _ = (searchOut.filterMap (process_matching_tool cache reg)).length := by
        simp [attachBatch]
    _ ≤ searchOut.length := List.length_filterMap_le _ _

/-! ## Claim theorems, C10 (match score) -/

theorem tryRegister_distance {reg : String → String → RegResult} {st : SearchTool}
    {t : ProcTool} (h : process_matching_tool.tryRegister reg st = some t) :
    t.distance = none := by
  unfold process_matching_tool.tryRegister at h
  split at h
  · next server _ =>
      split at h
      · exact absurd h (by simp)
      · unfold registerResolve at h
        split at h
        · exact absurd h (by simp)
        · split at h
          · exact absurd h (by simp)
          · injection h with h2
            subst h2
            rfl
  · exact absurd h (by simp)

theorem process_matching_tool_distance {cache : List CacheTool}
    {reg : String → String → RegResult} {st : SearchTool} {t : ProcTool}
    (h : process_matching_tool cache reg st = some t) : t.distance = none := by
  unfold process_matching_tool at h
  split at h
  · split at h
    · injection h with h2
      subst h2
      rfl
    · exact tryRegister_distance h
  · exact tryRegister_distance h

theorem attach_tool_ok_score {t : ProcTool} {http : String → HttpResult}
    {tid nm : String} {sc : ℚ} (h : attach_tool t http = .ok tid nm sc) :
    sc = matchScoreOf t.distance := by
  unfold attach_tool at h
  split at h
  · exact absurd h (by simp)
  · split at h
    · injection h with h1 h2 h3
      exact h3.symm
    · exact absurd h (by simp)
    · exact absurd h (by simp)
    · exact absurd h (by simp)

/-- Counterexample to C10: a successful attachment whose search candidate
has hybrid-search distance `3/5` carries `match_score = 100`, not
`100 · (1 − 3/5) = 40` — the candidate is resolved through the catalog
cache, which strips the distance before `attach_tool` sees it. -/
theorem C10_counterexample :
    (attach_tools "chat" [] [] wSearchFar wCache noReg okHttp okHttp).successful_attachments =
      [("tool-1", "send_message", 100)] ∧
    (100 : ℚ) ≠ 100 * (1 - 3 / 5) := by
  constructor
  · decide
  · norm_num

/-- C10 amended: `attach_tool` computes `match_score = 100·(1−distance)`
when its argument carries a `distance` field and `100` otherwise; since the
attach flow resolves every candidate through the catalog cache or
registration — both of which drop the search hit's distance — every entry
of `successful_attachments` in the attach response has `match_score = 100`. -/
theorem C10_match_score (d : ℚ) (query : String) (keep : List String)
    (agentTools : List AgentTool) (searchOut : List SearchTool) (cache : List CacheTool)
    (reg : String → String → RegResult) (dHttp aHttp : String → HttpResult) :
    matchScoreOf (some d) = 100 * (1 - d) ∧
    matchScoreOf none = 100 ∧
    ∀ (tid nm : String) (sc : ℚ),
      (tid, nm, sc) ∈
        (attach_tools query keep agentTools searchOut cache reg dHttp aHttp).successful_attachments →
      sc = 100 := by
  refine ⟨rfl, rfl, ?_⟩
  intro tid nm sc hmem
  have hmem' : (tid, nm, sc) ∈
      (attachBatch aHttp (searchOut.filterMap (process_matching_tool cache reg))).filterMap
        (fun o => match o with
          | .ok a b c => some (a, b, c)
          | .failed _ _ _ => none) := hmem
  rcases List.mem_filterMap.mp hmem' with ⟨o, ho, hpick⟩
  rcases List.mem_map.mp ho with ⟨t, ht, rfl⟩
  have hd : t.distance = none := by
    rcases List.mem_filterMap.mp ht with ⟨st, _, hst⟩
    exact process_matching_tool_distance hst
  have hok : attach_tool t aHttp = .ok tid nm sc := by
    cases hA : attach_tool t aHttp with
    | ok a b c =>
        rw [hA] at hpick
        simp only [Option.some.injEq] at hpick
        injection hpick with h1 hrest
        injection hrest with h2 h3
        subst h1; subst h2; subst h3
        rfl
    | failed a b c =>
        rw [hA] at hpick
        simp at hpick
  rw [attach_tool_ok_score hok, hd]
  rfl

/-- Witness for C10: applying the theorem to a concrete successful
attachment (search distance `3/5`, resolved through the cache). -/
theorem C10_witness : (100 : ℚ) = 100 :=
  (C10_match_score 0 "chat" [] [] wSearchFar wCache noReg okHttp okHttp).2.2
    "tool-1" "send_message" 100 (by decide)

end LettaSearch
